import Mathlib

/-!
Verification of the CausalLift uplift-modeling package
(src/src/causallift/causal_lift.py) against its specification.

The development shallowly embeds the data model and the operations of the
CausalLift class.  Pandas data frames are embedded as lists of rows (the
combined frame of the source is kept as its two partitions, train and test,
in original row order, matching the multi-index produced by
concat_train_test_df).  Machine floats of the source are embedded as
rationals; the non-finite float results that pandas produces on division by
zero or on the mean of an empty subset (NaN or infinity) are embedded as
none of Option Rat.  The two fitted XGBoost outcome classifiers and the
logistic-regression propensity model are external collaborators with a
predict-probability contract, embedded as abstract scoring functions from a
feature vector to a rational.

Column names only ever matter up to equality (set comparison and
membership tests in the constructor), so they are embedded as natural
numbers.
-/

namespace CausalLiftModel

/-- A single observational unit of the sample table: its feature vector and
the observed treatment and outcome cells.  Treatment and outcome are kept
as rationals exactly as pandas keeps them as numeric cells. -/
structure Row where
  features : List ℚ
  treatment : ℚ
  outcome : ℚ
deriving DecidableEq

instance : Inhabited Row := ⟨⟨[], 0, 0⟩⟩

/-- An external binary-probability estimator (the fitted XGBoost model of
the source), reduced to its predict-probability contract: a scoring
function from a feature vector to a probability. -/
structure UpliftModel where
  score : List ℚ → ℚ

/-- Modelled from the spec: nodes.model_for_each.ModelForTreatedOrUntreated
.predict_proba is not under src.  Per spec section 4.3 it scores every row
of the full table (both arms, both partitions) with this arm's fitted
model, regardless of the row's own actual treatment. -/
def predict_proba (m : UpliftModel) (df : List Row) : List ℚ :=
  df.map (fun r => m.score r.features)

/-- Source, causal_lift.py lines 235-241: the CATE series is the
element-wise difference of the treated-arm model scores and the
untreated-arm model scores over the whole table. -/
def estimate_cate_by_2_models (mT mU : UpliftModel) (df : List Row) : List ℚ :=
  List.zipWith (fun a b => a - b) (predict_proba mT df) (predict_proba mU df)

/-- Source, causal_lift.py line 281: pandas rank with method first,
ascending False.  The rank of position i is one plus the number of
positions holding a strictly greater value plus the number of earlier
positions holding an equal value (stable descending order, first-seen
wins on ties). -/
def rankFirst (v : List ℚ) (i : ℕ) : ℕ :=
  1 + ((Finset.range v.length).filter (fun j => v.getD i 0 < v.getD j 0)).card
    + ((Finset.range i).filter (fun j => v.getD j 0 = v.getD i 0)).card

/-- Source, causal_lift.py lines 280-283 (nested function recommendation):
rank the CATE series descending with method first, convert to a
percentile (pct True divides the rank by the series length), and emit 1.0
where the percentile is at most the treatment fraction, else 0.0. -/
def recommendation (cate_series : List ℚ) (treatment_fraction : ℚ) : List ℚ :=
  (List.range cate_series.length).map
    (fun i =>
      if (rankFirst cate_series i : ℚ) / (cate_series.length : ℚ) ≤ treatment_fraction
      then 1 else 0)

/-- The number of rows the policy recommends for treatment (count of 1.0
entries of the recommendation series). -/
def numRecommended (cate_series : List ℚ) (treatment_fraction : ℚ) : ℕ :=
  (recommendation cate_series treatment_fraction).countP (fun x => decide (x = 1))

/-- Source, causal_lift.py lines 268-269: the Python expression
(argument or stored) used to merge an optional caller override with the
stored treatment fraction.  Python treats both None and 0.0 as falsy, so
the stored value is kept for both. -/
def pyOr (override : Option ℚ) (stored : ℚ) : ℚ :=
  match override with
  | none => stored
  | some x => if x = 0 then stored else x

/-- Pandas multiplication of an integer count series with a float series:
a NaN factor yields NaN (none) even when the count is zero. -/
def nanMul (c : ℚ) (x : Option ℚ) : Option ℚ :=
  x.map (fun y => c * y)

/-- Pandas addition: NaN absorbs. -/
def nanAdd (x y : Option ℚ) : Option ℚ :=
  match x, y with
  | some a, some b => some (a + b)
  | _, _ => none

/-- Pandas division: a NaN operand or a zero denominator yields a
non-finite value, embedded as none. -/
def nanDiv (x y : Option ℚ) : Option ℚ :=
  match x, y with
  | some a, some b => if b = 0 then none else some (a / b)
  | _, _ => none

/-- One arm's simulated-impact statistics (the columns of the data frame
returned by simulate_recommendation for one arm). -/
structure ArmStats where
  n_chosen : ℕ
  obs_rate : Option ℚ
  n_recommended : ℕ
  pred_rate : Option ℚ
deriving DecidableEq

/-- One row of the aggregated impact table estimated_effect_df. -/
structure EstimatedEffect where
  n_samples : ℕ
  obs_rate : Option ℚ
  pred_rate : Option ℚ
  improvement_rate : Option ℚ
deriving DecidableEq

/-- Source, causal_lift.py lines 310-338: the Aggregator.  Overall sample
count is the sum of the two arms' chosen counts; overall observed and
predicted rates are the sample-count-weighted combinations of the arms'
rates; the predicted improvement rate is their quotient. -/
def estimate_effect_row (t u : ArmStats) : EstimatedEffect :=
  let obs :=
    nanDiv (nanAdd (nanMul (t.n_chosen : ℚ) t.obs_rate) (nanMul (u.n_chosen : ℚ) u.obs_rate))
      (some ((t.n_chosen : ℚ) + (u.n_chosen : ℚ)))
  let pred :=
    nanDiv
      (nanAdd (nanMul (t.n_recommended : ℚ) t.pred_rate) (nanMul (u.n_recommended : ℚ) u.pred_rate))
      (some ((t.n_recommended : ℚ) + (u.n_recommended : ℚ)))
  { n_samples := t.n_chosen + u.n_chosen
    obs_rate := obs
    pred_rate := pred
    improvement_rate := nanDiv pred obs }

/-- Modelled from the spec: nodes.model_for_each.ModelForTreatedOrUntreated
.simulate_recommendation is not under src.  Per spec sections 4.3 and 4.6,
for one arm it counts the rows whose historical treatment equals the arm
and averages their observed outcome, and counts the rows whose new
recommendation equals the arm and averages the arm model's predicted
outcome probability over them; an empty subset reports count zero and an
undefined (NaN) rate without raising. -/
def simulate_recommendation (arm : ℚ) (m : UpliftModel) (rows : List Row)
    (rec : List ℚ) : ArmStats :=
  let chosen := rows.filter (fun r => r.treatment = arm)
  let recommended := (rows.zip rec).filter (fun p => p.2 = arm)
  { n_chosen := chosen.length
    obs_rate :=
      if chosen.length = 0 then none
      else some ((chosen.map Row.outcome).sum / (chosen.length : ℚ))
    n_recommended := recommended.length
    pred_rate :=
      if recommended.length = 0 then none
      else some ((recommended.map (fun p => m.score p.1.features)).sum / (recommended.length : ℚ)) }

/-- Modelled from the spec: nodes.utils.treatment_fraction_ is not under
src.  Per spec section 3 it is the empirical fraction of the partition
that was historically treated. -/
def treatment_fraction_ (rows : List Row) : ℚ :=
  ((rows.filter (fun r => r.treatment = 1)).length : ℚ) / (rows.length : ℚ)

/-- The per-session mutable state of a CausalLift object that the
estimate methods read and write: the combined table (kept as its train and
test partitions in original row order) with its CATE and Recommendation
columns, and the stored treatment fractions. -/
structure SessionState where
  train_df : List Row
  test_df : List Row
  cate_train : List ℚ
  cate_test : List ℚ
  rec_train : List ℚ
  rec_test : List ℚ
  treatment_fraction_train : ℚ
  treatment_fraction_test : ℚ
deriving DecidableEq

/-- Source, causal_lift.py lines 235-241: estimate_cate_by_2_models at the
session level writes the CATE column of the combined table.  The source
computes one series over the concatenated frame; mapping each partition
separately is the same column because prediction is row-wise. -/
def session_estimate_cate (mT mU : UpliftModel) (s : SessionState) : SessionState :=
  { s with
    cate_train := estimate_cate_by_2_models mT mU s.train_df
    cate_test := estimate_cate_by_2_models mT mU s.test_df }

/-- Source, causal_lift.py lines 243-345: estimate_recommendation_impact.
An explicit cate_estimated argument overwrites the CATE column of the
combined frame (train rows first, then test rows); the fraction overrides
are merged with the Python or-expression of lines 268-269; the
recommendation column is recomputed per partition (lines 276-293); each
arm's impact statistics are simulated and aggregated per partition
(lines 296-338).  Returns the updated state and the aggregated impact
rows for the train and test partitions. -/
def estimate_recommendation_impact (mT mU : UpliftModel) (s : SessionState)
    (cate_estimated : Option (List ℚ))
    (treatment_fraction_train treatment_fraction_test : Option ℚ) :
    SessionState × (EstimatedEffect × EstimatedEffect) :=
  let s1 :=
    match cate_estimated with
    | none => s
    | some c =>
      { s with
        cate_train := c.take s.train_df.length
        cate_test := c.drop s.train_df.length }
  let fT := pyOr treatment_fraction_train s1.treatment_fraction_train
  let fE := pyOr treatment_fraction_test s1.treatment_fraction_test
  let rT := recommendation s1.cate_train fT
  let rE := recommendation s1.cate_test fE
  let s2 :=
    { s1 with
      treatment_fraction_train := fT
      treatment_fraction_test := fE
      rec_train := rT
      rec_test := rE }
  let treated_train := simulate_recommendation 1 mT s2.train_df rT
  let treated_test := simulate_recommendation 1 mT s2.test_df rE
  let untreated_train := simulate_recommendation 0 mU s2.train_df rT
  let untreated_test := simulate_recommendation 0 mU s2.test_df rE
  (s2,
    (estimate_effect_row treated_train untreated_train,
     estimate_effect_row treated_test untreated_test))

/-- Column names of a pandas data frame; only name equality ever matters
(set comparison and membership in the constructor), so names are embedded
as natural-number identifiers. -/
abbrev ColName := ℕ

/-- A pandas data frame as the constructor sees it: its column-name list
and, for each name, the column contents (meaningful for names in cols). -/
structure DataFrame where
  cols : List ColName
  colv : ColName → List ℚ
  nrows : ℕ

/-- An arbitrary Python value handed to the constructor; the isinstance
assertions of the source distinguish data frames from everything else. -/
inductive PyObject where
  | dataFrame (d : DataFrame)
  | otherValue

/-- The construction options the claims depend on (causal_lift.py lines
121-170); the hyperparameter grids, verbosity and cross-validation options
configure the external models and the display only and are omitted. -/
structure Args where
  cols_features : List ColName
  col_treatment : ColName
  col_outcome : ColName
  col_propensity : ColName
  col_cate : ColName
  col_recommendation : ColName
  min_propensity : ℚ
  max_propensity : ℚ
  enable_ipw : Bool

/-- The external propensity estimator (logistic regression), reduced to
its predict-probability contract. -/
structure PropensityModel where
  score : List ℚ → ℚ

/-- Pandas clip: values outside the band are clamped, never dropped. -/
def clip (lo hi x : ℚ) : ℚ := max lo (min hi x)

/-- Writing one column of a data frame (pandas column assignment): the
name is appended to the schema when absent. -/
def setCol (d : DataFrame) (c : ColName) (vals : List ℚ) : DataFrame :=
  { cols := if c ∈ d.cols then d.cols else d.cols ++ [c]
    colv := fun x => if x = c then vals else d.colv x
    nrows := d.nrows }

/-- Modelled from the spec: nodes.estimate_propensity.estimate_propensity
is not under src.  Per spec section 4.2 it fits a probability classifier
of treatment given features and writes a propensity column clipped to the
band from min_propensity to max_propensity into both partitions. -/
def estimate_propensity (pm : PropensityModel) (args : Args)
    (train_df test_df : DataFrame) : DataFrame × DataFrame :=
  let scoreRow := fun (d : DataFrame) (i : ℕ) =>
    clip args.min_propensity args.max_propensity
      (pm.score (args.cols_features.map (fun c => (d.colv c).getD i 0)))
  (setCol train_df args.col_propensity
      ((List.range train_df.nrows).map (scoreRow train_df)),
   setCol test_df args.col_propensity
      ((List.range test_df.nrows).map (scoreRow test_df)))

/-- The Python AssertionError raised by the boundary assertions of the
constructor (causal_lift.py lines 172-174). -/
inductive ConstructError where
  | assertionError
deriving DecidableEq

/-- The part of the constructed object the schema and propensity claims
are about: the two processed partitions and whether the propensity
estimation step ran. -/
structure Constructed where
  train_df : DataFrame
  test_df : DataFrame
  ipw_invoked : Bool

/-- Source, causal_lift.py lines 172-191: the constructor asserts that
both inputs are data frames with equal column sets, then (after
reset_index and copy, which leave cell contents unchanged) invokes the
propensity estimation exactly when enable_ipw is set and the propensity
column is absent; otherwise the inputs pass through untouched. -/
def causal_lift_init (pm : PropensityModel) (args : Args)
    (train test : PyObject) : Except ConstructError Constructed :=
  match train, test with
  | PyObject.dataFrame train_df, PyObject.dataFrame test_df =>
    if train_df.cols.toFinset = test_df.cols.toFinset then
      if args.enable_ipw = true ∧ args.col_propensity ∉ train_df.cols then
        let p := estimate_propensity pm args train_df test_df
        Except.ok { train_df := p.1, test_df := p.2, ipw_invoked := true }
      else
        Except.ok { train_df := train_df, test_df := test_df, ipw_invoked := false }
    else Except.error ConstructError.assertionError
  | _, _ => Except.error ConstructError.assertionError

/-- The schema precondition of the constructor: both inputs are data
frames and their column sets agree. -/
def schemaOk (train test : PyObject) : Prop :=
  ∃ dt de, train = PyObject.dataFrame dt ∧ test = PyObject.dataFrame de ∧
    dt.cols.toFinset = de.cols.toFinset

/-- The caller's tables together with one CausalLift session.  The source
copies both inputs (causal_lift.py lines 187-188, reset_index then copy),
so the session's combined table is an independent value and the caller's
tables appear as separate components that the session operations thread
through unchanged. -/
structure World where
  caller_train : List Row
  caller_test : List Row
  session : SessionState

/-- Source, causal_lift.py lines 187-210 at the row level: construction
copies the caller's partitions into the session table and computes the
stored treatment fractions once from the observed data. -/
def world_construct (train test : List Row) : World :=
  { caller_train := train
    caller_test := test
    session :=
      { train_df := train
        test_df := test
        cate_train := []
        cate_test := []
        rec_train := []
        rec_test := []
        treatment_fraction_train := treatment_fraction_ train
        treatment_fraction_test := treatment_fraction_ test } }

/-- estimate_cate_by_2_models as a world operation: it rewrites the
session's CATE column only. -/
def world_estimate_cate (mT mU : UpliftModel) (w : World) : World :=
  { w with session := session_estimate_cate mT mU w.session }

/-- estimate_recommendation_impact as a world operation: it rewrites the
session state only and returns the aggregated impact rows. -/
def world_estimate_impact (mT mU : UpliftModel) (w : World)
    (cate_estimated : Option (List ℚ)) (fT fE : Option ℚ) :
    World × (EstimatedEffect × EstimatedEffect) :=
  let r := estimate_recommendation_impact mT mU w.session cate_estimated fT fE
  ({ w with session := r.1 }, r.2)

/-! Combinatorics of the first-seen descending rank.  The ranks of a
series are exactly the positions 1..N of its stable descending sort, so
the number of positions with rank at most t is min t N. -/

theorem card_add_card_add_one_le (A B S : Finset ℕ) (i : ℕ)
    (hAB : Disjoint A B) (hiA : i ∉ A) (hiB : i ∉ B)
    (hAS : A ⊆ S) (hBS : B ⊆ S) (hiS : i ∈ S) :
    A.card + B.card + 1 ≤ S.card := by
  have hd2 : Disjoint (A ∪ B) {i} := by
    simp [Finset.disjoint_singleton_right, hiA, hiB]
  calc A.card + B.card + 1 = ((A ∪ B) ∪ {i}).card := by
        rw [Finset.card_union_of_disjoint hd2, Finset.card_union_of_disjoint hAB,
          Finset.card_singleton]
    _ ≤ S.card := by
        refine Finset.card_le_card ?_
        intro x hx
        rcases Finset.mem_union.mp hx with h | h
        · rcases Finset.mem_union.mp h with h | h
          exacts [hAS h, hBS h]
        · rw [Finset.mem_singleton] at h
          subst h
          exact hiS

theorem rankFirst_pos (v : List ℚ) (i : ℕ) : 1 ≤ rankFirst v i := by
  simp only [rankFirst]
  omega

theorem rankFirst_le_length (v : List ℚ) (i : ℕ) (hi : i < v.length) :
    rankFirst v i ≤ v.length := by
  have h := card_add_card_add_one_le
    ((Finset.range v.length).filter (fun j => v.getD i 0 < v.getD j 0))
    ((Finset.range i).filter (fun j => v.getD j 0 = v.getD i 0))
    (Finset.range v.length) i
    (by
      rw [Finset.disjoint_left]
      intro a ha hb
      rw [Finset.mem_filter] at ha hb
      exact absurd (hb.2 ▸ ha.2) (lt_irrefl _))
    (by simp)
    (by simp)
    (Finset.filter_subset _ _)
    (fun x hx => by
      rw [Finset.mem_filter, Finset.mem_range] at hx
      exact Finset.mem_range.mpr (lt_trans hx.1 hi))
    (Finset.mem_range.mpr hi)
  rw [Finset.card_range] at h
  simp only [rankFirst]
  omega

theorem rankFirst_lt_of_value_gt (v : List ℚ) (i j : ℕ)
    (hi : i < v.length) (_hj : j < v.length)
    (hgt : v.getD j 0 < v.getD i 0) :
    rankFirst v i < rankFirst v j := by
  have h := card_add_card_add_one_le
    ((Finset.range v.length).filter (fun k => v.getD i 0 < v.getD k 0))
    ((Finset.range i).filter (fun k => v.getD k 0 = v.getD i 0))
    ((Finset.range v.length).filter (fun k => v.getD j 0 < v.getD k 0)) i
    (by
      rw [Finset.disjoint_left]
      intro a ha hb
      rw [Finset.mem_filter] at ha hb
      exact absurd (hb.2 ▸ ha.2) (lt_irrefl _))
    (by simp)
    (by simp)
    (by
      intro k hk
      rw [Finset.mem_filter] at hk ⊢
      exact ⟨hk.1, lt_trans hgt hk.2⟩)
    (by
      intro k hk
      rw [Finset.mem_filter, Finset.mem_range] at hk
      rw [Finset.mem_filter]
      exact ⟨Finset.mem_range.mpr (lt_trans hk.1 hi), hk.2 ▸ hgt⟩)
    (by
      rw [Finset.mem_filter]
      exact ⟨Finset.mem_range.mpr hi, hgt⟩)
  simp only [rankFirst]
  omega

theorem rankFirst_lt_of_eq (v : List ℚ) (i j : ℕ) (hij : i < j)
    (hv : v.getD i 0 = v.getD j 0) :
    rankFirst v i < rankFirst v j := by
  have hA : ((Finset.range v.length).filter (fun k => v.getD i 0 < v.getD k 0))
      = ((Finset.range v.length).filter (fun k => v.getD j 0 < v.getD k 0)) := by
    refine Finset.filter_congr ?_
    intro k _
    rw [hv]
  have hB : ((Finset.range i).filter (fun k => v.getD k 0 = v.getD i 0)).card + 1
      ≤ ((Finset.range j).filter (fun k => v.getD k 0 = v.getD j 0)).card := by
    have hsub : ((Finset.range i).filter (fun k => v.getD k 0 = v.getD i 0)) ∪ {i}
        ⊆ (Finset.range j).filter (fun k => v.getD k 0 = v.getD j 0) := by
      intro k hk
      rcases Finset.mem_union.mp hk with h | h
      · rw [Finset.mem_filter, Finset.mem_range] at h
        rw [Finset.mem_filter, Finset.mem_range]
        exact ⟨lt_trans h.1 hij, h.2.trans hv⟩
      · rw [Finset.mem_singleton] at h
        subst h
        rw [Finset.mem_filter, Finset.mem_range]
        exact ⟨hij, hv⟩
    have hd : Disjoint ((Finset.range i).filter (fun k => v.getD k 0 = v.getD i 0)) {i} := by
      simp [Finset.disjoint_singleton_right]
    calc ((Finset.range i).filter (fun k => v.getD k 0 = v.getD i 0)).card + 1
        = (((Finset.range i).filter (fun k => v.getD k 0 = v.getD i 0)) ∪ {i}).card := by
          rw [Finset.card_union_of_disjoint hd, Finset.card_singleton]
      _ ≤ _ := Finset.card_le_card hsub
  simp only [rankFirst, hA]
  omega

theorem rankFirst_injOn (v : List ℚ) (i j : ℕ) (hi : i < v.length) (hj : j < v.length)
    (h : rankFirst v i = rankFirst v j) : i = j := by
  rcases lt_trichotomy (v.getD i 0) (v.getD j 0) with hv | hv | hv
  · have := rankFirst_lt_of_value_gt v j i hj hi hv
    omega
  · rcases lt_trichotomy i j with hij | rfl | hij
    · have := rankFirst_lt_of_eq v i j hij hv
      omega
    · rfl
    · have := rankFirst_lt_of_eq v j i hij hv.symm
      omega
  · have := rankFirst_lt_of_value_gt v i j hi hj hv
    omega

theorem rankFirst_surj (v : List ℚ) (r : ℕ) (h1 : 1 ≤ r) (h2 : r ≤ v.length) :
    ∃ i, i < v.length ∧ rankFirst v i = r := by
  have hs := Finset.surj_on_of_inj_on_of_card_le
    (s := Finset.range v.length) (t := Finset.Icc 1 v.length)
    (fun a _ => rankFirst v a)
    (fun a ha => Finset.mem_Icc.mpr
      ⟨rankFirst_pos v a, rankFirst_le_length v a (Finset.mem_range.mp ha)⟩)
    (fun a1 a2 ha1 ha2 heq =>
      rankFirst_injOn v a1 a2 (Finset.mem_range.mp ha1) (Finset.mem_range.mp ha2) heq)
    (by rw [Nat.card_Icc, Finset.card_range]; omega)
    r (Finset.mem_Icc.mpr ⟨h1, h2⟩)
  obtain ⟨a, ha, heq⟩ := hs
  exact ⟨a, Finset.mem_range.mp ha, heq.symm⟩

theorem countP_range_eq (n : ℕ) (p : ℕ → Prop) [DecidablePred p] :
    (List.range n).countP (fun i => decide (p i)) = ((Finset.range n).filter p).card := by
  rw [Finset.card_filter]
  induction n with
  | zero => simp
  | succ m ih =>
    rw [Finset.sum_range_succ, List.range_succ, List.countP_append, List.countP_cons,
      List.countP_nil]
    by_cases h : p m <;> simp [h, ih]

theorem card_rankFirst_le (v : List ℚ) (t : ℕ) :
    ((Finset.range v.length).filter (fun i => rankFirst v i ≤ t)).card
      = min t v.length := by
  have h := Finset.card_bij
    (s := (Finset.range v.length).filter (fun i => rankFirst v i ≤ t))
    (t := Finset.Icc 1 (min t v.length))
    (fun a _ => rankFirst v a)
    (fun a ha => by
      rw [Finset.mem_filter, Finset.mem_range] at ha
      exact Finset.mem_Icc.mpr
        ⟨rankFirst_pos v a, le_min ha.2 (rankFirst_le_length v a ha.1)⟩)
    (fun a1 ha1 a2 ha2 heq => by
      rw [Finset.mem_filter, Finset.mem_range] at ha1 ha2
      exact rankFirst_injOn v a1 a2 ha1.1 ha2.1 heq)
    (fun b hb => by
      rw [Finset.mem_Icc] at hb
      obtain ⟨i, hilt, hieq⟩ := rankFirst_surj v b hb.1 (le_trans hb.2 (min_le_right _ _))
      refine ⟨i, ?_, hieq⟩
      rw [Finset.mem_filter, Finset.mem_range]
      exact ⟨hilt, hieq ▸ le_trans hb.2 (min_le_left _ _)⟩)
  rw [h, Nat.card_Icc]
  omega

theorem floor_mul_nonneg (f : ℚ) (n : ℕ) (h0 : 0 ≤ f) : 0 ≤ ⌊f * (n : ℚ)⌋ :=
  Int.floor_nonneg.mpr (mul_nonneg h0 (Nat.cast_nonneg n))

theorem numRecommended_eq (cate : List ℚ) (f : ℚ) (h0 : 0 ≤ f) (h1 : f ≤ 1) :
    numRecommended cate f = (⌊f * (cate.length : ℚ)⌋).toNat := by
  rcases Nat.eq_zero_or_pos cate.length with hn | hn
  · have hnil : cate = [] := List.length_eq_zero.mp hn
    subst hnil
    simp [numRecommended, recommendation]
  · have hcast : (0 : ℚ) < (cate.length : ℚ) := by exact_mod_cast hn
    have hfl : 0 ≤ ⌊f * (cate.length : ℚ)⌋ := floor_mul_nonneg f cate.length h0
    have key : ∀ r : ℕ,
        ((r : ℚ) / (cate.length : ℚ) ≤ f ↔ r ≤ (⌊f * (cate.length : ℚ)⌋).toNat) := by
      intro r
      rw [div_le_iff₀ hcast, Int.le_toNat hfl, Int.le_floor]
      norm_cast
    have htN : (⌊f * (cate.length : ℚ)⌋).toNat ≤ cate.length := by
      rw [Int.toNat_le]
      calc ⌊f * (cate.length : ℚ)⌋ ≤ ⌊(1 : ℚ) * (cate.length : ℚ)⌋ :=
            Int.floor_mono (mul_le_mul_of_nonneg_right h1 (le_of_lt hcast))
        _ = (cate.length : ℤ) := by rw [one_mul, Int.floor_natCast]
    have hpt : ∀ x ∈ List.range cate.length,
        ((fun x => decide (x = 1)) ∘
            (fun i =>
              if (rankFirst cate i : ℚ) / (cate.length : ℚ) ≤ f then (1 : ℚ) else 0)) x = true
          ↔ decide (rankFirst cate x ≤ (⌊f * (cate.length : ℚ)⌋).toNat) = true := by
      intro i _
      simp only [Function.comp_apply, decide_eq_true_eq]
      by_cases hc : (rankFirst cate i : ℚ) / (cate.length : ℚ) ≤ f
      · rw [if_pos hc]
        simp [(key _).mp hc]
      · rw [if_neg hc]
        constructor
        · intro h
          exact absurd h (by norm_num)
        · intro h
          exact absurd ((key _).mpr h) hc
    calc numRecommended cate f
        = (List.range cate.length).countP
            (fun i => decide (rankFirst cate i ≤ (⌊f * (cate.length : ℚ)⌋).toNat)) := by
          rw [numRecommended, recommendation, List.countP_map]
          exact List.countP_congr hpt
      _ = ((Finset.range cate.length).filter
            (fun i => rankFirst cate i ≤ (⌊f * (cate.length : ℚ)⌋).toNat)).card :=
          countP_range_eq _ _
      _ = min (⌊f * (cate.length : ℚ)⌋).toNat cate.length := card_rankFirst_le _ _
      _ = (⌊f * (cate.length : ℚ)⌋).toNat := min_eq_left htN

theorem floor_round_close (x : ℚ) : |⌊x⌋ - round x| ≤ 1 := by
  have h1 : ⌊x⌋ ≤ round x := by
    rw [round_eq]
    exact Int.floor_mono (by linarith)
  have h2 : round x ≤ ⌊x⌋ + 1 := by
    rw [round_eq]
    calc ⌊x + 1 / 2⌋ ≤ ⌊x + 1⌋ := Int.floor_mono (by linarith)
      _ = ⌊x⌋ + 1 := by exact_mod_cast Int.floor_add_int x 1
  rw [abs_le]
  omega

/-- Claim C1: for every row of the combined table, regardless of the row's
actual historical treatment, the CATE value produced by
estimate_cate_by_2_models equals the treated-arm model's predicted outcome
probability for that row minus the untreated-arm model's predicted outcome
probability for that row.  The right-hand side depends only on the row's
feature vector, so the value is independent of the treatment cell. -/
theorem cate_by_2_models_pointwise (mT mU : UpliftModel) (df : List Row) (i : ℕ)
    (hi : i < df.length) :
    (estimate_cate_by_2_models mT mU df).getD i 0
      = mT.score (df.getD i default).features - mU.score (df.getD i default).features := by
  have hlen : (estimate_cate_by_2_models mT mU df).length = df.length := by
    simp [estimate_cate_by_2_models, predict_proba]
  rw [List.getD_eq_getElem _ _ (by rw [hlen]; exact hi),
    List.getD_eq_getElem _ _ hi]
  simp [estimate_cate_by_2_models, predict_proba]

theorem cate_by_2_models_pointwise_witness :
    (1 < ([⟨[5], 1, 0⟩, ⟨[7], 0, 1⟩] : List Row).length) ∧
    (estimate_cate_by_2_models ⟨fun _ => 1⟩ ⟨fun _ => 0⟩
        ([⟨[5], 1, 0⟩, ⟨[7], 0, 1⟩] : List Row)).getD 1 0
      = UpliftModel.score ⟨fun _ => 1⟩
          (([⟨[5], 1, 0⟩, ⟨[7], 0, 1⟩] : List Row).getD 1 default).features
        - UpliftModel.score ⟨fun _ => 0⟩
          (([⟨[5], 1, 0⟩, ⟨[7], 0, 1⟩] : List Row).getD 1 default).features :=
  ⟨by decide, cate_by_2_models_pointwise ⟨fun _ => 1⟩ ⟨fun _ => 0⟩ _ 1 (by decide)⟩

/-- Claim C2: for one partition, the policy ranks samples by CATE
descending with ties broken by original row order (first-seen wins),
recommends exactly the rows whose rank percentile is at most the
treatment fraction f, and the number of recommended rows is the floor of
f times the partition size, which is within one of round(f times N). -/
theorem recommendation_policy (cate : List ℚ) (f : ℚ) (h0 : 0 ≤ f) (h1 : f ≤ 1) :
    (∀ i, i < cate.length →
        (recommendation cate f).getD i 0
          = if (rankFirst cate i : ℚ) / (cate.length : ℚ) ≤ f then 1 else 0)
  ∧ (∀ i j, i < cate.length → j < cate.length →
        (cate.getD j 0 < cate.getD i 0 → rankFirst cate i < rankFirst cate j)
      ∧ (cate.getD i 0 = cate.getD j 0 → i < j → rankFirst cate i < rankFirst cate j))
  ∧ (numRecommended cate f : ℤ) = ⌊f * (cate.length : ℚ)⌋
  ∧ |(numRecommended cate f : ℤ) - round (f * (cate.length : ℚ))| ≤ 1 := by
  have h3 : (numRecommended cate f : ℤ) = ⌊f * (cate.length : ℚ)⌋ := by
    rw [numRecommended_eq cate f h0 h1,
      Int.toNat_of_nonneg (floor_mul_nonneg f cate.length h0)]
  refine ⟨?_, ?_, h3, ?_⟩
  · intro i hi
    rw [recommendation, List.getD_eq_getElem _ _ (by simpa using hi)]
    simp [hi]
  · intro i j hi hj
    exact ⟨fun h => rankFirst_lt_of_value_gt cate i j hi hj h,
           fun h hij => rankFirst_lt_of_eq cate i j hij h⟩
  · rw [h3]
    exact floor_round_close _

theorem recommendation_policy_witness :
    ((0 : ℚ) ≤ 1) ∧ ((1 : ℚ) ≤ 1) ∧
    ((∀ i, i < ([3, 1] : List ℚ).length →
        (recommendation [3, 1] 1).getD i 0
          = if (rankFirst [3, 1] i : ℚ) / (([3, 1] : List ℚ).length : ℚ) ≤ 1 then 1 else 0)
    ∧ (∀ i j, i < ([3, 1] : List ℚ).length → j < ([3, 1] : List ℚ).length →
          (([3, 1] : List ℚ).getD j 0 < ([3, 1] : List ℚ).getD i 0 →
            rankFirst [3, 1] i < rankFirst [3, 1] j)
        ∧ (([3, 1] : List ℚ).getD i 0 = ([3, 1] : List ℚ).getD j 0 → i < j →
            rankFirst [3, 1] i < rankFirst [3, 1] j))
    ∧ (numRecommended [3, 1] 1 : ℤ) = ⌊(1 : ℚ) * (([3, 1] : List ℚ).length : ℚ)⌋
    ∧ |(numRecommended [3, 1] 1 : ℤ) - round ((1 : ℚ) * (([3, 1] : List ℚ).length : ℚ))| ≤ 1) :=
  ⟨by decide, by decide, recommendation_policy [3, 1] 1 (by decide) (by decide)⟩

/-- Claim C3: for a fixed CATE series over one partition, a larger
treatment fraction never recommends fewer rows. -/
theorem recommendation_monotone (cate : List ℚ) (f1 f2 : ℚ) (h : f1 ≤ f2) :
    numRecommended cate f1 ≤ numRecommended cate f2 := by
  unfold numRecommended recommendation
  rw [List.countP_map, List.countP_map]
  apply List.countP_mono_left
  intro i _ hp
  simp only [Function.comp_apply, decide_eq_true_eq] at hp ⊢
  by_cases hc : (rankFirst cate i : ℚ) / (cate.length : ℚ) ≤ f1
  · rw [if_pos (le_trans hc h)]
  · rw [if_neg hc] at hp
    exact absurd hp (by norm_num)

theorem recommendation_monotone_witness :
    ((0 : ℚ) ≤ 1) ∧ numRecommended [2, 5] 0 ≤ numRecommended [2, 5] 1 :=
  ⟨by decide, recommendation_monotone [2, 5] 0 1 (by decide)⟩

/-- Claim C4: in the aggregated impact row, the overall sample count is
exactly the sum of the two arms' chosen counts, and when both arms report
a defined observed rate and at least one sample was chosen, the overall
observed rate is the sample-count-weighted average of the two rates and
hence lies between their minimum and maximum. -/
theorem estimated_effect_aggregation (t u : ArmStats) (r1 r2 : ℚ)
    (ht : t.obs_rate = some r1) (hu : u.obs_rate = some r2)
    (hn : 0 < t.n_chosen + u.n_chosen) :
    (estimate_effect_row t u).n_samples = t.n_chosen + u.n_chosen
  ∧ (estimate_effect_row t u).obs_rate
      = some (((t.n_chosen : ℚ) * r1 + (u.n_chosen : ℚ) * r2)
          / ((t.n_chosen : ℚ) + (u.n_chosen : ℚ)))
  ∧ min r1 r2 ≤ ((t.n_chosen : ℚ) * r1 + (u.n_chosen : ℚ) * r2)
          / ((t.n_chosen : ℚ) + (u.n_chosen : ℚ))
  ∧ ((t.n_chosen : ℚ) * r1 + (u.n_chosen : ℚ) * r2)
          / ((t.n_chosen : ℚ) + (u.n_chosen : ℚ)) ≤ max r1 r2 := by
  have ha : (0 : ℚ) ≤ (t.n_chosen : ℚ) := Nat.cast_nonneg _
  have hb : (0 : ℚ) ≤ (u.n_chosen : ℚ) := Nat.cast_nonneg _
  have hab : (0 : ℚ) < (t.n_chosen : ℚ) + (u.n_chosen : ℚ) := by
    have h := hn
    have : (0 : ℚ) < ((t.n_chosen + u.n_chosen : ℕ) : ℚ) := by exact_mod_cast h
    push_cast at this
    linarith
  refine ⟨rfl, ?_, ?_, ?_⟩
  · simp [estimate_effect_row, nanMul, nanAdd, nanDiv, ht, hu, ne_of_gt hab]
  · rw [le_div_iff₀ hab]
    have h1 : min r1 r2 ≤ r1 := min_le_left _ _
    have h2 : min r1 r2 ≤ r2 := min_le_right _ _
    nlinarith
  · rw [div_le_iff₀ hab]
    have h1 : r1 ≤ max r1 r2 := le_max_left _ _
    have h2 : r2 ≤ max r1 r2 := le_max_right _ _
    nlinarith

theorem estimated_effect_aggregation_witness :
    ((⟨2, some 1, 1, some 0⟩ : ArmStats).obs_rate = some 1)
  ∧ ((⟨1, some 0, 2, some 1⟩ : ArmStats).obs_rate = some 0)
  ∧ (0 < (⟨2, some 1, 1, some 0⟩ : ArmStats).n_chosen
        + (⟨1, some 0, 2, some 1⟩ : ArmStats).n_chosen)
  ∧ ((estimate_effect_row ⟨2, some 1, 1, some 0⟩ ⟨1, some 0, 2, some 1⟩).n_samples
        = (⟨2, some 1, 1, some 0⟩ : ArmStats).n_chosen
          + (⟨1, some 0, 2, some 1⟩ : ArmStats).n_chosen
    ∧ (estimate_effect_row ⟨2, some 1, 1, some 0⟩ ⟨1, some 0, 2, some 1⟩).obs_rate
        = some ((((⟨2, some 1, 1, some 0⟩ : ArmStats).n_chosen : ℚ) * 1
              + ((⟨1, some 0, 2, some 1⟩ : ArmStats).n_chosen : ℚ) * 0)
            / (((⟨2, some 1, 1, some 0⟩ : ArmStats).n_chosen : ℚ)
              + ((⟨1, some 0, 2, some 1⟩ : ArmStats).n_chosen : ℚ)))
    ∧ min 1 0 ≤ ((((⟨2, some 1, 1, some 0⟩ : ArmStats).n_chosen : ℚ) * 1
              + ((⟨1, some 0, 2, some 1⟩ : ArmStats).n_chosen : ℚ) * 0)
            / (((⟨2, some 1, 1, some 0⟩ : ArmStats).n_chosen : ℚ)
              + ((⟨1, some 0, 2, some 1⟩ : ArmStats).n_chosen : ℚ)))
    ∧ ((((⟨2, some 1, 1, some 0⟩ : ArmStats).n_chosen : ℚ) * 1
              + ((⟨1, some 0, 2, some 1⟩ : ArmStats).n_chosen : ℚ) * 0)
            / (((⟨2, some 1, 1, some 0⟩ : ArmStats).n_chosen : ℚ)
              + ((⟨1, some 0, 2, some 1⟩ : ArmStats).n_chosen : ℚ))) ≤ max 1 0) :=
  ⟨rfl, rfl, by decide,
    estimated_effect_aggregation ⟨2, some 1, 1, some 0⟩ ⟨1, some 0, 2, some 1⟩ 1 0
      rfl rfl (by decide)⟩

/-- Claim C5: the aggregator computes the predicted improvement rate as
the predicted conversion rate divided by the observed conversion rate,
and a zero (or undefined) observed baseline yields the undefined marker
(none, embedding the non-finite pandas float) rather than raising. -/
theorem improvement_rate_div (t u : ArmStats) :
    (estimate_effect_row t u).improvement_rate
      = nanDiv (estimate_effect_row t u).pred_rate (estimate_effect_row t u).obs_rate
  ∧ ((estimate_effect_row t u).obs_rate = some 0 →
      (estimate_effect_row t u).improvement_rate = none)
  ∧ (∀ p b, (estimate_effect_row t u).pred_rate = some p →
      (estimate_effect_row t u).obs_rate = some b → b ≠ 0 →
      (estimate_effect_row t u).improvement_rate = some (p / b)) := by
  refine ⟨rfl, ?_, ?_⟩
  · intro h
    show nanDiv (estimate_effect_row t u).pred_rate (estimate_effect_row t u).obs_rate = none
    rw [h]
    cases hp : (estimate_effect_row t u).pred_rate with
    | none => rfl
    | some p => simp [nanDiv]
  · intro p b hp hb hbne
    show nanDiv (estimate_effect_row t u).pred_rate (estimate_effect_row t u).obs_rate
      = some (p / b)
    rw [hp, hb]
    simp [nanDiv, hbne]

theorem improvement_rate_div_witness :
    (estimate_effect_row ⟨1, some 0, 1, some 1⟩ ⟨0, some 0, 0, some 0⟩).obs_rate = some 0
  ∧ (estimate_effect_row ⟨1, some 0, 1, some 1⟩ ⟨0, some 0, 0, some 0⟩).improvement_rate
      = none :=
  ⟨by simp [estimate_effect_row, nanMul, nanAdd, nanDiv],
   (improvement_rate_div ⟨1, some 0, 1, some 1⟩ ⟨0, some 0, 0, some 0⟩).2.1
     (by simp [estimate_effect_row, nanMul, nanAdd, nanDiv])⟩

/-- Claim C6: construction fails with the boundary assertion error exactly
when one of the inputs is not a data frame or the two column sets differ;
in particular it never silently coerces or proceeds in those cases. -/
theorem init_schema_assertion (pm : PropensityModel) (args : Args) (train test : PyObject) :
    causal_lift_init pm args train test = Except.error ConstructError.assertionError
      ↔ ¬ schemaOk train test := by
  constructor
  · intro h hok
    obtain ⟨dt, de, rfl, rfl, hcols⟩ := hok
    rw [causal_lift_init, if_pos hcols] at h
    by_cases hc : args.enable_ipw = true ∧ args.col_propensity ∉ dt.cols
    · rw [if_pos hc] at h
      exact Except.noConfusion h
    · rw [if_neg hc] at h
      exact Except.noConfusion h
  · intro h
    cases train with
    | otherValue => cases test <;> rfl
    | dataFrame dt =>
      cases test with
      | otherValue => rfl
      | dataFrame de =>
        have hcols : dt.cols.toFinset ≠ de.cols.toFinset :=
          fun hc => h ⟨dt, de, rfl, rfl, hc⟩
        rw [causal_lift_init, if_neg hcols]

theorem init_schema_assertion_witness :
    causal_lift_init ⟨fun _ => 0⟩ ⟨[0], 1, 2, 3, 4, 5, 0, 1, true⟩
        PyObject.otherValue PyObject.otherValue
      = Except.error ConstructError.assertionError :=
  (init_schema_assertion ⟨fun _ => 0⟩ ⟨[0], 1, 2, 3, 4, 5, 0, 1, true⟩
      PyObject.otherValue PyObject.otherValue).mpr
    (fun hok => by
      obtain ⟨dt, de, h1, _⟩ := hok
      exact PyObject.noConfusion h1)

/-- Claim C7: for schema-compatible inputs, construction invokes the
propensity estimation step if and only if inverse-propensity weighting is
enabled and the propensity column is absent; in every other case the input
frames, and hence any caller-supplied propensity column, pass through
verbatim.  The source tests absence on the train frame only; under the
column-set assertion of line 174 that is absence from both tables. -/
theorem init_propensity_invocation (pm : PropensityModel) (args : Args)
    (dt de : DataFrame) (h : dt.cols.toFinset = de.cols.toFinset) :
    ∃ c, causal_lift_init pm args (PyObject.dataFrame dt) (PyObject.dataFrame de)
        = Except.ok c
      ∧ (c.ipw_invoked = true ↔ (args.enable_ipw = true ∧ args.col_propensity ∉ dt.cols))
      ∧ (¬(args.enable_ipw = true ∧ args.col_propensity ∉ dt.cols) →
          c.train_df = dt ∧ c.test_df = de) := by
  by_cases hc : args.enable_ipw = true ∧ args.col_propensity ∉ dt.cols
  · refine ⟨⟨(estimate_propensity pm args dt de).1, (estimate_propensity pm args dt de).2,
      true⟩, ?_, ?_, ?_⟩
    · rw [causal_lift_init, if_pos h, if_pos hc]
    · simp [hc]
    · intro hn
      exact absurd hc hn
  · refine ⟨⟨dt, de, false⟩, ?_, ?_, ?_⟩
    · rw [causal_lift_init, if_pos h, if_neg hc]
    · simp [hc]
    · intro _
      exact ⟨rfl, rfl⟩

theorem init_propensity_invocation_witness :
    (([2, 3] : List ColName).toFinset = ([2, 3] : List ColName).toFinset)
  ∧ (∃ c, causal_lift_init ⟨fun _ => 0⟩ ⟨[0], 1, 2, 3, 4, 5, 0, 1, true⟩
        (PyObject.dataFrame ⟨[2, 3], fun _ => [], 0⟩)
        (PyObject.dataFrame ⟨[2, 3], fun _ => [], 0⟩)
        = Except.ok c
      ∧ (c.ipw_invoked = true ↔
          ((⟨[0], 1, 2, 3, 4, 5, 0, 1, true⟩ : Args).enable_ipw = true
            ∧ (⟨[0], 1, 2, 3, 4, 5, 0, 1, true⟩ : Args).col_propensity
                ∉ (⟨[2, 3], fun _ => [], 0⟩ : DataFrame).cols))
      ∧ (¬((⟨[0], 1, 2, 3, 4, 5, 0, 1, true⟩ : Args).enable_ipw = true
            ∧ (⟨[0], 1, 2, 3, 4, 5, 0, 1, true⟩ : Args).col_propensity
                ∉ (⟨[2, 3], fun _ => [], 0⟩ : DataFrame).cols) →
          c.train_df = ⟨[2, 3], fun _ => [], 0⟩ ∧ c.test_df = ⟨[2, 3], fun _ => [], 0⟩)) :=
  ⟨rfl, init_propensity_invocation ⟨fun _ => 0⟩ ⟨[0], 1, 2, 3, 4, 5, 0, 1, true⟩
    ⟨[2, 3], fun _ => [], 0⟩ ⟨[2, 3], fun _ => [], 0⟩ rfl⟩

theorem pyOr_absorb (v : Option ℚ) (x : ℚ) : pyOr v (pyOr v x) = pyOr v x := by
  cases v with
  | none => rfl
  | some a =>
    by_cases h : a = 0 <;> simp [pyOr, h]

/-- Claim C9: calling estimate_recommendation_impact twice in succession
with identical explicit cate_estimated, treatment_fraction_train and
treatment_fraction_test arguments yields the identical session state and
identical output impact rows. -/
theorem impact_idempotent (mT mU : UpliftModel) (s : SessionState)
    (c : List ℚ) (v1 v2 : ℚ) :
    estimate_recommendation_impact mT mU
        (estimate_recommendation_impact mT mU s (some c) (some v1) (some v2)).1
        (some c) (some v1) (some v2)
      = estimate_recommendation_impact mT mU s (some c) (some v1) (some v2) := by
  simp only [estimate_recommendation_impact, pyOr_absorb]

/-- Claim C10: the constructor copies both caller tables (lines 187-188:
reset_index then copy), so the caller components of the world are left
unchanged by construction, CATE estimation and impact estimation, while
the session starts from an identical copy of the data. -/
theorem caller_tables_never_mutated (mT mU : UpliftModel)
    (train test : List Row) (cate_estimated : Option (List ℚ)) (fT fE : Option ℚ) :
    ((world_estimate_impact mT mU
        (world_estimate_cate mT mU (world_construct train test))
        cate_estimated fT fE).1.caller_train = train)
  ∧ ((world_estimate_impact mT mU
        (world_estimate_cate mT mU (world_construct train test))
        cate_estimated fT fE).1.caller_test = test)
  ∧ (world_construct train test).session.train_df = train
  ∧ (world_construct train test).session.test_df = test :=
  ⟨rfl, rfl, rfl, rfl⟩

/-- Claim C8 fails on the code: the override merge of lines 268-269 uses
the Python or-expression, which treats the in-range value 0.0 exactly like
None, so an explicit treatment_fraction_train of 0 is ignored and the
stored fraction is used instead.  Here the stored train fraction is 1:
after passing an explicit fraction of 0 the session still uses fraction 1
and the policy recommends both train rows, while a fraction of 0, as the
claim requires, would recommend none. -/
theorem fraction_zero_override_ignored :
    (pyOr (some 0) 1 = 1)
  ∧ ((estimate_recommendation_impact ⟨fun _ => 0⟩ ⟨fun _ => 0⟩
        ⟨[⟨[], 1, 0⟩, ⟨[], 1, 1⟩], [], [], [], [], [], 1, 1⟩
        (some [1, 0]) (some 0) (some 0)).1.treatment_fraction_train = 1)
  ∧ ((estimate_recommendation_impact ⟨fun _ => 0⟩ ⟨fun _ => 0⟩
        ⟨[⟨[], 1, 0⟩, ⟨[], 1, 1⟩], [], [], [], [], [], 1, 1⟩
        (some [1, 0]) (some 0) (some 0)).1.rec_train = recommendation [1, 0] 1)
  ∧ numRecommended [1, 0] 1 = 2
  ∧ numRecommended [1, 0] 0 = 0 := by
  refine ⟨rfl, rfl, rfl, ?_, ?_⟩
  · rw [numRecommended_eq [1, 0] 1 (by norm_num) le_rfl]
    norm_num
    rfl
  · rw [numRecommended_eq [1, 0] 0 le_rfl (by norm_num)]
    norm_num

end CausalLiftModel
